import Mathlib

/-
Verification of the energy-market coordination engine
(src/src/energy_market): contract negotiation, the transaction
ledger, market aggregation and the regulatory rules, embedded
shallowly over rational numbers.
-/

namespace EnergyMarket

/-- Agent kinds of the simulation (base.py dispatches on isinstance
checks over these classes). -/
inductive AgentKind where
  | consumer
  | prosumer
  | producer
  | utility
  | regulator
deriving Repr, DecidableEq

/-- A contract record as stored in a contract book
(producer.py negotiate_contract, base.py record_transaction).
The accepted flag of the source dict is always True for stored
contracts, so it is omitted. -/
structure Contract where
  utilityId : String
  amount : ℚ
  price : ℚ
  duration : ℕ
  remainingDuration : ℤ
  isRenewable : Bool
deriving Repr, DecidableEq

/-- Assignment into a Python dict rendered as an association list:
replace the entry whose key matches, append at the end otherwise.
Dicts never hold duplicate keys, so replacing the first match is
exact. -/
def dictInsert {α : Type} : List (String × α) → String → α → List (String × α)
  | [], k, v => [(k, v)]
  | e :: rest, k, v => if e.1 = k then (k, v) :: rest else e :: dictInsert rest k v

/-- Sum of the amount field over a contract book, as computed by the
loop in producer.py negotiate_contract lines 164-166. -/
def sumAmounts (book : List (String × Contract)) : ℚ :=
  (book.map (fun e => e.2.amount)).sum

/-- The producer state that the contract lifecycle touches
(producer.py): production type, declared capacity, current price
and the utility_contracts dict. -/
structure Producer where
  productionType : String
  maxCapacity : ℚ
  currentPrice : ℚ
  utilityContracts : List (String × Contract)
deriving Repr, DecidableEq

/-- producer.py is_renewable: the production type is one of solar,
wind, hydro. -/
def producerIsRenewable (p : Producer) : Bool :=
  ["solar", "wind", "hydro"].contains p.productionType

/-- Available capacity as computed at the top of
producer.py negotiate_contract: max_capacity minus the sum of the
amounts of all stored contracts. -/
def availableCapacity (p : Producer) : ℚ :=
  p.maxCapacity - sumAmounts p.utilityContracts

/-- Outcome of negotiate_contract: the accepted contract dict, or the
rejection dict with its reason string. -/
inductive NegotiationResult where
  | rejected (reason : String)
  | accepted (c : Contract)
deriving Repr, DecidableEq

/-- The contract dict built by producer.py negotiate_contract lines
171-184: the price carries a volume discount of
min(0.1, amount / max_capacity * 0.2), capped at 10 percent. -/
def negotiatedContract (p : Producer) (utilityId : String) (amount : ℚ)
    (duration : ℕ) : Contract :=
  { utilityId := utilityId, amount := amount,
    price := p.currentPrice * (1 - min (1/10 : ℚ) (amount / p.maxCapacity * (2/10))),
    duration := duration, remainingDuration := (duration : ℤ),
    isRenewable := producerIsRenewable p }

/-- producer.py negotiate_contract lines 152-187: reject when the
requested amount exceeds the available capacity; otherwise build the
discounted contract and store it in the utility_contracts dict under
the utility id. -/
def negotiateContract (p : Producer) (utilityId : String) (amount : ℚ) (duration : ℕ) :
    NegotiationResult × Producer :=
  if amount > availableCapacity p then
    (NegotiationResult.rejected "Insufficient capacity", p)
  else
    let c := negotiatedContract p utilityId amount duration
    (NegotiationResult.accepted c,
      { p with utilityContracts := dictInsert p.utilityContracts utilityId c })

/-- producer.py fulfill_contracts lines 189-211, restricted to its
effect on the contract book: entries whose remaining_duration is
non-positive are deleted; for every other entry, the sell branch of
record_transaction (base.py lines 70-78) re-stores the contract under
the same utility id with the same amount and price, with duration and
remaining_duration reset to the callers minimum contract duration
(passed here as minDur). The in-place decrement of the local dict in
fulfill_contracts acts on the replaced, no longer stored dict, so it
leaves the book unchanged. -/
def fulfillBook (minDur : ℕ) (book : List (String × Contract)) :
    List (String × Contract) :=
  (book.filter (fun e => decide (0 < e.2.remainingDuration))).map
    (fun e => (e.1, { e.2 with duration := minDur, remainingDuration := (minDur : ℤ) }))

/-- The producer state after fulfill_contracts: only the contract book
changes, as described for fulfillBook. -/
def fulfillContracts (minDur : ℕ) (p : Producer) : Producer :=
  { p with utilityContracts := fulfillBook minDur p.utilityContracts }

/-- The contract stored by the buy branch of record_transaction
(base.py lines 129-137) when a utility buys from a producer: amount
and price are the call arguments, durations come from the minimum
contract duration, the renewable flag from the producer. -/
def recordBuyContract (p : Producer) (utilityId : String) (amount price : ℚ)
    (minDur : ℕ) : Contract :=
  { utilityId := utilityId, amount := amount, price := price,
    duration := minDur, remainingDuration := (minDur : ℤ),
    isRenewable := producerIsRenewable p }

/-- One mutation of a producer state by the program. Each constructor
is one of the source call sites that writes a producer contract book,
capacity or price, with the guard that call site establishes:
negotiate checks capacity itself (producer.py 168); the setup buy in
energy_market.py 287-291 passes contract_amount = min(remaining_needs,
available_capacity) with both positive, hence the two hypotheses;
fulfill refreshes or deletes entries (producer.py 189-211); upgrade
adds the positive upgrade_capacity_increase (producer.py 233-235);
step sets a new price (producer.py 285). -/
inductive ProducerStep : Producer → Producer → Prop where
  | negotiate (p : Producer) (u : String) (a : ℚ) (d : ℕ) (ha : 0 ≤ a) :
      ProducerStep p (negotiateContract p u a d).2
  | setupBuy (p : Producer) (u : String) (a price : ℚ) (minDur : ℕ)
      (ha : 0 ≤ a) (hcap : a ≤ availableCapacity p) :
      ProducerStep p
        { p with utilityContracts :=
            dictInsert p.utilityContracts u (recordBuyContract p u a price minDur) }
  | fulfill (p : Producer) (minDur : ℕ) :
      ProducerStep p (fulfillContracts minDur p)
  | upgrade (p : Producer) (inc : ℚ) (hinc : 0 ≤ inc) :
      ProducerStep p { p with maxCapacity := p.maxCapacity + inc }
  | setPrice (p : Producer) (newPrice : ℚ) :
      ProducerStep p { p with currentPrice := newPrice }

/-- Invariant carried through the reachability proof: all stored
amounts are nonnegative and their sum is within the declared
capacity. -/
def BookInv (p : Producer) : Prop :=
  (∀ e ∈ p.utilityContracts, 0 ≤ e.2.amount) ∧
  sumAmounts p.utilityContracts ≤ p.maxCapacity

/-- A violation dict as passed to calculate_fine_amount
(regulator.py). The source dicts carry only the keys the emitting
code set; keys absent from the source dict are the empty string or 0
here, and no branch that runs on such a dict reads them. -/
structure Violation where
  agentId : String
  vtype : String
  price : ℚ
  threshold : ℚ
  concentration : ℚ
  ratio : ℚ
deriving Repr, DecidableEq

/-- regulator.py detect_price_gouging lines 70-102: flag every
producer, then every utility, whose price exceeds
average_price * (1 + max_price_increase). The type field of the
emitted dict is the literal string producer or utility. -/
def detectPriceGouging (avgPrice maxPriceIncrease : ℚ)
    (producers utilities : List (String × ℚ)) : List Violation :=
  (producers.filter (fun e => decide (avgPrice * (1 + maxPriceIncrease) < e.2))).map
    (fun e =>
      { agentId := e.1, vtype := "producer", price := e.2,
        threshold := avgPrice * (1 + maxPriceIncrease),
        concentration := 0, ratio := 0 })
  ++
  (utilities.filter (fun e => decide (avgPrice * (1 + maxPriceIncrease) < e.2))).map
    (fun e =>
      { agentId := e.1, vtype := "utility", price := e.2,
        threshold := avgPrice * (1 + maxPriceIncrease),
        concentration := 0, ratio := 0 })

/-- regulator.py calculate_fine_amount lines 135-157: dispatch on the
type string of the violation dict; any unmatched type falls through
to 0.0. -/
def calculateFineAmount (concThreshold minRenRatio : ℚ) (v : Violation) : ℚ :=
  if v.vtype = "price_gouging" then (v.price - v.threshold) * 2
  else if v.vtype = "market_concentration" then
    (v.concentration - concThreshold) * 10000
  else if v.vtype = "renewable_quota" then (minRenRatio - v.ratio) * 5000
  else 0

/-- The price gouging arm of regulator.py enforce_regulations lines
165-174: for each violation returned by detect_price_gouging, the
fine issued is calculate_fine_amount applied to that violation dict.
The result pairs each flagged price with its fine. -/
def enforcePriceGougingFines (concThreshold minRenRatio : ℚ)
    (avgPrice maxPriceIncrease : ℚ)
    (producers utilities : List (String × ℚ)) : List (String × ℚ) :=
  (detectPriceGouging avgPrice maxPriceIncrease producers utilities).map
    (fun v => (v.agentId, calculateFineAmount concThreshold minRenRatio v))

/-- The renewable quota arm of regulator.py enforce_regulations lines
198-213: only when the market wide renewable ratio is below
min_renewable_ratio does it walk the utilities, fining each whose own
ratio is below min_renewable_ratio with the amount computed by
calculate_fine_amount on a renewable_quota violation dict. Utilities
are given as pairs of id and renewable ratio. -/
def enforceRenewableQuota (concThreshold minRenRatio marketRenewRatio : ℚ)
    (utilities : List (String × ℚ)) : List (String × ℚ) :=
  if marketRenewRatio < minRenRatio then
    (utilities.filter (fun u => decide (u.2 < minRenRatio))).map
      (fun u => (u.1,
        calculateFineAmount concThreshold minRenRatio
          { agentId := "", vtype := "renewable_quota", price := 0, threshold := 0,
            concentration := 0, ratio := u.2 }))
  else []

/-- regulator.py adjust_carbon_tax lines 104-120: raise the rate by
10 percent when the renewable ratio is below the target, decay it by
5 percent when the ratio exceeds 1.5 times the target, then clamp the
result from below by the base rate. -/
def adjustCarbonTax (baseTax minRenRatio currentTax renewRatio : ℚ) : ℚ :=
  let updated :=
    if renewRatio < minRenRatio then currentTax * (11/10)
    else if renewRatio > minRenRatio * (3/2) then currentTax * (19/20)
    else currentTax
  max baseTax updated

/-- energy_market.py get_market_state lines 389-401: total_capacity
sums the declared capacities of producers and prosumers, while the
squared shares are taken over producers only; an empty share list
(total_capacity not positive) sums to 0. -/
def marketConcentration (producerCaps prosumerCaps : List ℚ) : ℚ :=
  let totalCapacity := producerCaps.sum + prosumerCaps.sum
  if 0 < totalCapacity then (producerCaps.map (fun c => (c / totalCapacity) ^ 2)).sum
  else 0

/-- The concentration index as the spec words it for claim C4: squared
shares of producer capacity over the total of producer capacities
only, 0 when that total is 0. Stated for comparison with
marketConcentration. -/
def marketConcentrationSpec (producerCaps : List ℚ) : ℚ :=
  let totalCapacity := producerCaps.sum
  if totalCapacity = 0 then 0
  else (producerCaps.map (fun c => (c / totalCapacity) ^ 2)).sum

/-- energy_market.py get_market_state lines 362-371: average_price is
the mean of the utilities selling prices, falling back to the
configured initial price when the utility list is empty. Producer
prices feed the separate average_spot_price only. -/
def averagePrice (utilityPrices : List ℚ) (initialPrice : ℚ) : ℚ :=
  if utilityPrices.isEmpty then initialPrice
  else utilityPrices.sum / utilityPrices.length

/-- The average price as the spec words it for claim C5: the mean over
the selling prices of both utilities and producers, with the initial
price fallback when no prices exist. Stated for comparison with
averagePrice. -/
def averagePriceSpec (utilityPrices producerPrices : List ℚ)
    (initialPrice : ℚ) : ℚ :=
  let allPrices := utilityPrices ++ producerPrices
  if allPrices.isEmpty then initialPrice else allPrices.sum / allPrices.length

/-- A transaction history entry (base.py record_transaction lines
48-55): the is_renewable key is only present on the branches that set
it, hence the Option. -/
structure Txn where
  timestamp : ℕ
  ttype : String
  amount : ℚ
  price : ℚ
  counterparty : String
  totalValue : ℚ
  isRenewable : Option Bool
deriving Repr, DecidableEq

/-- A customer_base entry as written by base.py lines 102-109. -/
structure CustomerEntry where
  id : String
  amount : ℚ
  price : ℚ
  avgConsumption : ℚ
  lastPurchase : ℕ
  isRenewable : Bool
deriving Repr, DecidableEq

/-- The consumer state touched by consumer.py purchase_energy. -/
structure ConsumerState where
  id : String
  resources : ℚ
  energyNeeds : ℚ
  energyBalance : ℚ
  history : List Txn
deriving Repr, DecidableEq

/-- The utility state touched when a consumer buys from it
(base.py lines 89-109). -/
structure UtilityState where
  id : String
  resources : ℚ
  renewableQuota : ℚ
  customerBase : List (String × CustomerEntry)
  history : List Txn
deriving Repr, DecidableEq

/-- base.py record_transaction for a buy recorded by a consumer
against a utility counterpart (lines 46-59, 89-109, 144-145): the
consumer pays total_value, the utility receives it, both histories
get mirrored entries carrying the renewable flag derived from the
utility quota, and the utility customer_base entry for the consumer
is written. -/
def consumerBuyRecord (step : ℕ) (c : ConsumerState) (u : UtilityState)
    (amount price : ℚ) : ConsumerState × UtilityState :=
  let totalValue := amount * price
  let isRen : Bool := decide ((1 : ℚ)/2 < u.renewableQuota)
  let txn : Txn :=
    { timestamp := step, ttype := "buy", amount := amount, price := price,
      counterparty := u.id, totalValue := totalValue, isRenewable := some isRen }
  let ctxn : Txn := { txn with ttype := "sell", counterparty := c.id }
  ({ c with resources := c.resources - totalValue, history := c.history ++ [txn] },
   { u with resources := u.resources + totalValue,
            customerBase := dictInsert u.customerBase c.id
              { id := c.id, amount := amount, price := price,
                avgConsumption := c.energyNeeds, lastPurchase := step,
                isRenewable := isRen },
            history := u.history ++ [ctxn] })

/-- consumer.py purchase_energy lines 57-75: when amount * price
exceeds the consumer resources the call returns False before touching
any state; otherwise the consumer is debited, its energy balance grows
and the buy is recorded against the seller. -/
def purchaseEnergy (step : ℕ) (c : ConsumerState) (u : UtilityState)
    (amount price : ℚ) : Bool × ConsumerState × UtilityState :=
  if amount * price > c.resources then (false, c, u)
  else
    let c1 := { c with resources := c.resources - amount * price,
                       energyBalance := c.energyBalance + amount }
    let r := consumerBuyRecord step c1 u amount price
    (true, r.1, r.2)

/-- The resource deltas applied to the calling agent (first component)
and to the counterparty (second component) by one call of
base.py record_transaction, as a function of the caller kind, the
transaction type string, the amount, the unit price and the
base_production_cost of the counterparty. The sell branch (lines
61-63) credits the caller and debits the counterparty; the buy branch
(lines 89-91) debits the caller and credits the counterparty, and
when the caller is a utility it additionally debits the counterparty
by base_production_cost * amount (line 116); every other type string
falls to the cost branch (lines 139-142), debiting the caller by the
price alone. -/
def recordResourceDeltas (selfKind : AgentKind) (ttype : String)
    (amount price counterBaseProdCost : ℚ) : ℚ × ℚ :=
  let totalValue := amount * price
  if ttype = "sell" then (totalValue, -totalValue)
  else if ttype = "buy" then
    if selfKind = AgentKind.consumer then (-totalValue, totalValue)
    else if selfKind = AgentKind.utility then
      (-totalValue, totalValue - counterBaseProdCost * amount)
    else (-totalValue, totalValue)
  else (-price, 0)

/-- A concrete producer used to instantiate several results: capacity
100, current price 50, empty contract book. -/
def sampleProducer : Producer :=
  { productionType := "oil", maxCapacity := 100, currentPrice := 50,
    utilityContracts := [] }

theorem sumAmounts_nil : sumAmounts [] = 0 := rfl

theorem sumAmounts_cons (e : String × Contract) (l : List (String × Contract)) :
    sumAmounts (e :: l) = e.2.amount + sumAmounts l := by
  simp [sumAmounts]

theorem mem_dictInsert {α : Type} (book : List (String × α)) (k : String) (v : α)
    (e : String × α) (he : e ∈ dictInsert book k v) : e = (k, v) ∨ e ∈ book := by
  induction book with
  | nil => simpa [dictInsert] using he
  | cons hd rest ih =>
    by_cases hk : hd.1 = k
    · simp only [dictInsert, if_pos hk, List.mem_cons] at he
      rcases he with h | h
      · exact Or.inl h
      · exact Or.inr (List.mem_cons_of_mem _ h)
    · simp only [dictInsert, if_neg hk, List.mem_cons] at he
      rcases he with h | h
      · exact Or.inr (h ▸ List.mem_cons_self _ _)
      · rcases ih h with h2 | h2
        · exact Or.inl h2
        · exact Or.inr (List.mem_cons_of_mem _ h2)

theorem sumAmounts_dictInsert_le (book : List (String × Contract)) (k : String)
    (c : Contract) (h : ∀ e ∈ book, 0 ≤ e.2.amount) :
    sumAmounts (dictInsert book k c) ≤ sumAmounts book + c.amount := by
  induction book with
  | nil => simp [dictInsert, sumAmounts]
  | cons e rest ih =>
    by_cases hk : e.1 = k
    · have h0 : 0 ≤ e.2.amount := h e (List.mem_cons_self _ _)
      simp only [dictInsert, if_pos hk, sumAmounts_cons]
      linarith
    · have hrest : ∀ x ∈ rest, 0 ≤ x.2.amount :=
        fun x hx => h x (List.mem_cons_of_mem _ hx)
      simp only [dictInsert, if_neg hk, sumAmounts_cons]
      have := ih hrest
      linarith

theorem dictInsert_idem {α : Type} (book : List (String × α)) (k : String) (v : α) :
    dictInsert (dictInsert book k v) k v = dictInsert book k v := by
  induction book with
  | nil => simp [dictInsert]
  | cons e rest ih =>
    by_cases hk : e.1 = k
    · simp [dictInsert, hk]
    · simp [dictInsert, hk, ih]

theorem sumAmounts_filter_le (p : String × Contract → Bool)
    (book : List (String × Contract)) (h : ∀ e ∈ book, 0 ≤ e.2.amount) :
    sumAmounts (book.filter p) ≤ sumAmounts book := by
  induction book with
  | nil => simp
  | cons e rest ih =>
    have h0 : 0 ≤ e.2.amount := h e (List.mem_cons_self _ _)
    have hrest : ∀ x ∈ rest, 0 ≤ x.2.amount :=
      fun x hx => h x (List.mem_cons_of_mem _ hx)
    by_cases hp : p e = true
    · simp only [List.filter_cons, if_pos hp, sumAmounts_cons]
      have := ih hrest
      linarith
    · simp only [List.filter_cons, if_neg hp, sumAmounts_cons]
      have := ih hrest
      linarith

theorem sumAmounts_fulfillBook (minDur : ℕ) (book : List (String × Contract)) :
    sumAmounts (fulfillBook minDur book) =
      sumAmounts (book.filter (fun e => decide (0 < e.2.remainingDuration))) := by
  unfold fulfillBook
  generalize book.filter (fun e => decide (0 < e.2.remainingDuration)) = l
  induction l with
  | nil => simp [sumAmounts]
  | cons e rest ih => simp [sumAmounts_cons, ih]

theorem mem_fulfillBook (minDur : ℕ) (book : List (String × Contract))
    (e : String × Contract) (he : e ∈ fulfillBook minDur book) :
    ∃ x ∈ book, e.2.amount = x.2.amount := by
  unfold fulfillBook at he
  rcases List.mem_map.mp he with ⟨x, hx, hxe⟩
  exact ⟨x, List.mem_of_mem_filter hx, by rw [← hxe]⟩

/-- Inserting a contract whose amount is nonnegative and fits in the
remaining capacity keeps the invariant. -/
theorem bookInv_insert {p : Producer}
    (hpos : ∀ e ∈ p.utilityContracts, 0 ≤ e.2.amount)
    {u : String} {c : Contract} (hca : 0 ≤ c.amount)
    (hle : c.amount ≤ p.maxCapacity - sumAmounts p.utilityContracts) :
    BookInv { p with utilityContracts := dictInsert p.utilityContracts u c } := by
  constructor
  · intro e he
    have he2 : e ∈ dictInsert p.utilityContracts u c := he
    rcases mem_dictInsert _ _ _ _ he2 with rfl | he3
    · exact hca
    · exact hpos e he3
  · have h1 := sumAmounts_dictInsert_le p.utilityContracts u c hpos
    show sumAmounts (dictInsert p.utilityContracts u c) ≤ p.maxCapacity
    linarith

/-- Every program mutation of a producer keeps the stored amounts
nonnegative and their sum within the declared capacity. -/
theorem bookInv_preserved {p q : Producer} (hp : BookInv p)
    (hs : ProducerStep p q) : BookInv q := by
  obtain ⟨hpos, hsum⟩ := hp
  cases hs with
  | negotiate u a d ha =>
    by_cases hcap : a > availableCapacity p
    · have hid : (negotiateContract p u a d).2 = p := by
        simp [negotiateContract, hcap]
      rw [hid]
      exact ⟨hpos, hsum⟩
    · have hle : a ≤ p.maxCapacity - sumAmounts p.utilityContracts := by
        simpa [availableCapacity] using not_lt.mp hcap
      simp only [negotiateContract, if_neg hcap]
      refine bookInv_insert hpos ?_ ?_
      · exact ha
      · exact hle
  | setupBuy u a price minDur ha hcap =>
    have hle : a ≤ p.maxCapacity - sumAmounts p.utilityContracts := by
      simpa [availableCapacity] using hcap
    refine bookInv_insert hpos ?_ ?_
    · exact ha
    · exact hle
  | fulfill minDur =>
    constructor
    · intro e he
      rcases mem_fulfillBook _ _ _ he with ⟨x, hx, hxa⟩
      rw [hxa]
      exact hpos x hx
    · show sumAmounts (fulfillBook minDur p.utilityContracts) ≤ p.maxCapacity
      rw [sumAmounts_fulfillBook]
      exact le_trans (sumAmounts_filter_le _ _ hpos) hsum
  | upgrade inc hinc =>
    exact ⟨hpos, by simp only; linarith⟩
  | setPrice newPrice =>
    exact ⟨hpos, hsum⟩

/-- Claim C2: at every state reachable through the program mutations of
a producer, starting from a state satisfying the book invariant (as the
initial producers do, with an empty contract book), the sum of the
amounts of the active contracts in the contract book is at most the
declared maximum production capacity. -/
theorem producer_capacity_invariant (p q : Producer) (h0 : BookInv p)
    (h : Relation.ReflTransGen ProducerStep p q) :
    sumAmounts (q.utilityContracts.filter
      (fun e => decide (0 < e.2.remainingDuration))) ≤ q.maxCapacity := by
  have hq : BookInv q := by
    induction h with
    | refl => exact h0
    | tail hsteps hlast ih => exact bookInv_preserved ih hlast
  exact le_trans (sumAmounts_filter_le _ _ hq.1) hq.2

/-- Witness for C2: the sample producer satisfies the invariant and one
accepted negotiation keeps the active amounts within capacity. -/
theorem producer_capacity_invariant_witness :
    BookInv sampleProducer ∧
      sumAmounts (((negotiateContract sampleProducer "u1" 30 3).2).utilityContracts.filter
        (fun e => decide (0 < e.2.remainingDuration)))
        ≤ ((negotiateContract sampleProducer "u1" 30 3).2).maxCapacity := by
  have h0 : BookInv sampleProducer := by
    constructor
    · intro e he
      simp [sampleProducer] at he
    · norm_num [sampleProducer, sumAmounts]
  refine ⟨h0, producer_capacity_invariant _ _ h0 ?_⟩
  exact Relation.ReflTransGen.single
    (ProducerStep.negotiate sampleProducer "u1" 30 3 (by norm_num))

/-- Claim C3: negotiate_contract returns the rejection with reason
Insufficient capacity exactly when the requested amount exceeds the
capacity minus the sum of the existing contract amounts, and otherwise
returns the accepted contract priced with the capped volume discount. -/
theorem negotiateContract_spec (p : Producer) (u : String) (amount : ℚ) (dur : ℕ) :
    ((negotiateContract p u amount dur).1 =
        NegotiationResult.rejected "Insufficient capacity" ↔
      p.maxCapacity - sumAmounts p.utilityContracts < amount)
    ∧ (amount ≤ p.maxCapacity - sumAmounts p.utilityContracts →
        (negotiateContract p u amount dur).1 = NegotiationResult.accepted
          { utilityId := u, amount := amount,
            price := p.currentPrice *
              (1 - min (1/10 : ℚ) (amount / p.maxCapacity * (2/10))),
            duration := dur, remainingDuration := (dur : ℤ),
            isRenewable := producerIsRenewable p }) := by
  constructor
  · constructor
    · intro h1
      by_contra hc
      push_neg at hc
      have hn : ¬ amount > availableCapacity p := by
        simp only [availableCapacity, gt_iff_lt, not_lt]
        exact hc
      simp [negotiateContract, hn] at h1
    · intro h1
      have hgt : amount > availableCapacity p := by
        simpa [availableCapacity, gt_iff_lt] using h1
      simp [negotiateContract, hgt]
  · intro hle
    have hn : ¬ amount > availableCapacity p := by
      simp only [availableCapacity, gt_iff_lt, not_lt]
      exact hle
    simp [negotiateContract, hn, negotiatedContract]

/-- Witness for C3: capacity 100, current price 50 and amount 30 give
an accepted contract at price 47. -/
theorem negotiateContract_spec_witness :
    (30 : ℚ) ≤ sampleProducer.maxCapacity - sumAmounts sampleProducer.utilityContracts
    ∧ (negotiateContract sampleProducer "u1" 30 3).1 = NegotiationResult.accepted
        { utilityId := "u1", amount := 30, price := 47, duration := 3,
          remainingDuration := 3, isRenewable := false } := by
  have hle : (30 : ℚ) ≤
      sampleProducer.maxCapacity - sumAmounts sampleProducer.utilityContracts := by
    norm_num [sampleProducer, sumAmounts]
  refine ⟨hle, ?_⟩
  have h := (negotiateContract_spec sampleProducer "u1" 30 3).2 hle
  rw [h]
  norm_num [sampleProducer, producerIsRenewable, min_def]
  decide

/-- The contract produced by the sample negotiation of 30 units. -/
def contractC9 : Contract :=
  { utilityId := "u1", amount := 30, price := 47, duration := 3,
    remainingDuration := 3, isRenewable := false }

/-- Counterexample for C9: with capacity 100, both identical
negotiations for 30 units are accepted, yet the contract book holds a
single contract afterwards, not two, because the book is keyed by the
utility id. -/
theorem negotiate_twice_single_contract :
    (negotiateContract sampleProducer "u1" 30 3).1 ≠
      NegotiationResult.rejected "Insufficient capacity"
    ∧ (negotiateContract (negotiateContract sampleProducer "u1" 30 3).2 "u1" 30 3).1 ≠
      NegotiationResult.rejected "Insufficient capacity"
    ∧ ((negotiateContract (negotiateContract sampleProducer "u1" 30 3).2
        "u1" 30 3).2).utilityContracts.length = 1
    ∧ (1 : ℕ) ≠ 2 := by
  have h1 : negotiateContract sampleProducer "u1" 30 3 =
      (NegotiationResult.accepted contractC9,
        { sampleProducer with utilityContracts := [("u1", contractC9)] }) := by
    norm_num [negotiateContract, negotiatedContract, availableCapacity, sumAmounts,
      sampleProducer, producerIsRenewable, min_def, dictInsert, contractC9]
    decide
  have h2 : negotiateContract
      { sampleProducer with utilityContracts := [("u1", contractC9)] } "u1" 30 3 =
      (NegotiationResult.accepted contractC9,
        { sampleProducer with utilityContracts := [("u1", contractC9)] }) := by
    norm_num [negotiateContract, negotiatedContract, availableCapacity, sumAmounts,
      sampleProducer, producerIsRenewable, min_def, dictInsert, contractC9]
    decide
  refine ⟨?_, ?_, ?_, by norm_num⟩
  · rw [h1]
    simp
  · rw [h1, h2]
    simp
  · rw [h1, h2]
    simp

/-- Amended C9: repeating the same negotiation leaves the producer
state of the first call unchanged, since the dict entry for the
utility is overwritten with the identical contract when the repeat is
accepted, and nothing changes when it is rejected. -/
theorem negotiateContract_idem (p : Producer) (u : String) (a : ℚ) (d : ℕ) :
    (negotiateContract (negotiateContract p u a d).2 u a d).2 =
      (negotiateContract p u a d).2 := by
  by_cases h1 : a > availableCapacity p
  · simp [negotiateContract, h1]
  · simp only [negotiateContract, if_neg h1]
    by_cases h2 : a > availableCapacity
        { p with utilityContracts :=
            dictInsert p.utilityContracts u (negotiatedContract p u a d) }
    · simp only [if_pos h2]
    · simp only [if_neg h2]
      have hsame :
          negotiatedContract
            { p with utilityContracts :=
                dictInsert p.utilityContracts u (negotiatedContract p u a d) }
            u a d = negotiatedContract p u a d := rfl
      simp only [hsame, dictInsert_idem]

/-- Counterexample for C1: a buy of 10 units at unit price 5 recorded
by a utility against a producer whose base production cost is 30
applies deltas of -50 to the utility and 50 - 300 to the producer, so
the pair sums to -300, not 0. -/
theorem record_pair_not_conserving :
    (recordResourceDeltas AgentKind.utility "buy" 10 5 30).1 +
      (recordResourceDeltas AgentKind.utility "buy" 10 5 30).2 = -300
    ∧ ((-300 : ℚ) ≠ 0) := by
  have hb : ("buy" : String) ≠ "sell" := by decide
  have hk1 : AgentKind.utility ≠ AgentKind.consumer := by decide
  refine ⟨?_, by norm_num⟩
  norm_num [recordResourceDeltas, if_neg hb, if_neg hk1]

/-- Amended C1: a recorded sell always balances to zero across the
pair, as does a buy recorded by any caller other than a utility; a buy
recorded by a utility additionally debits the counterparty by
base_production_cost * amount inside the same call, so the pair sums
to minus that cost. -/
theorem recordResourceDeltas_conservation (k : AgentKind) (amount price cost : ℚ) :
    ((recordResourceDeltas k "sell" amount price cost).1 +
        (recordResourceDeltas k "sell" amount price cost).2 = 0)
    ∧ (k ≠ AgentKind.utility →
        (recordResourceDeltas k "buy" amount price cost).1 +
          (recordResourceDeltas k "buy" amount price cost).2 = 0)
    ∧ ((recordResourceDeltas AgentKind.utility "buy" amount price cost).1 +
        (recordResourceDeltas AgentKind.utility "buy" amount price cost).2
          = -(cost * amount)) := by
  refine ⟨?_, ?_, ?_⟩
  · simp [recordResourceDeltas]
  · intro hk
    cases k <;> simp_all [recordResourceDeltas]
  · simp [recordResourceDeltas]
    ring

/-- Witness for C1: a consumer buy of 10 units at price 5 balances to
zero. -/
theorem recordResourceDeltas_conservation_witness :
    AgentKind.consumer ≠ AgentKind.utility ∧
    (recordResourceDeltas AgentKind.consumer "buy" 10 5 30).1 +
      (recordResourceDeltas AgentKind.consumer "buy" 10 5 30).2 = 0 :=
  ⟨by decide,
    (recordResourceDeltas_conservation AgentKind.consumer 10 5 30).2.1 (by decide)⟩

/-- Claim C10: when the total cost exceeds the consumer resources,
purchase_energy returns False and leaves the consumer and the seller
exactly as they were. -/
theorem purchaseEnergy_insufficient (step : ℕ) (c : ConsumerState)
    (u : UtilityState) (amount price : ℚ) (h : amount * price > c.resources) :
    purchaseEnergy step c u amount price = (false, c, u) := by
  simp [purchaseEnergy, h]

/-- A concrete consumer with 100 in resources. -/
def sampleConsumer : ConsumerState :=
  { id := "c1", resources := 100, energyNeeds := 30, energyBalance := 0,
    history := [] }

/-- A concrete utility seller. -/
def sampleUtility : UtilityState :=
  { id := "ut1", resources := 1000, renewableQuota := 2/5, customerBase := [],
    history := [] }

/-- Witness for C10: buying 30 units at price 5 against 100 in
resources fails and changes nothing. -/
theorem purchaseEnergy_insufficient_witness :
    (30 : ℚ) * 5 > sampleConsumer.resources ∧
    purchaseEnergy 0 sampleConsumer sampleUtility 30 5 =
      (false, sampleConsumer, sampleUtility) :=
  ⟨by norm_num [sampleConsumer],
    purchaseEnergy_insufficient 0 sampleConsumer sampleUtility 30 5
      (by norm_num [sampleConsumer])⟩

/-- Claim C8: the carbon tax adjustment raises the rate by 10 percent
below the target ratio, decays it by 5 percent above 1.5 times the
target, leaves it unchanged otherwise, in every case clamping from
below by the configured base rate, so the result is never below that
floor. -/
theorem adjustCarbonTax_spec (b m c r : ℚ) :
    (r < m → adjustCarbonTax b m c r = max b (c * (11/10)))
    ∧ (¬ r < m → m * (3/2) < r → adjustCarbonTax b m c r = max b (c * (19/20)))
    ∧ (¬ r < m → ¬ m * (3/2) < r → b ≤ c → adjustCarbonTax b m c r = c)
    ∧ (r < m → b ≤ c → 0 ≤ b → adjustCarbonTax b m c r = c * (11/10))
    ∧ b ≤ adjustCarbonTax b m c r := by
  refine ⟨?_, ?_, ?_, ?_, ?_⟩
  · intro h
    simp [adjustCarbonTax, h]
  · intro h1 h2
    simp [adjustCarbonTax, h1, h2]
  · intro h1 h2 h3
    simp only [adjustCarbonTax, if_neg h1, gt_iff_lt, if_neg h2]
    exact max_eq_right h3
  · intro h1 h2 h3
    simp only [adjustCarbonTax, if_pos h1]
    have : b ≤ c * (11/10) := by nlinarith
    exact max_eq_right this
  · simp only [adjustCarbonTax]
    exact le_max_left _ _

/-- Witness for C8: base 10, target 3/10, rate 10 and ratio 1/10 give
the raised rate 11 and stay above the floor. -/
theorem adjustCarbonTax_spec_witness :
    ((1 : ℚ)/10 < 3/10) ∧ (10 : ℚ) ≤ 10 ∧ (0 : ℚ) ≤ 10 ∧
    adjustCarbonTax 10 (3/10) 10 (1/10) = 10 * (11/10) ∧
    (10 : ℚ) ≤ adjustCarbonTax 10 (3/10) 10 (1/10) := by
  have h := adjustCarbonTax_spec 10 (3/10) 10 (1/10)
  exact ⟨by norm_num, le_refl 10, by norm_num,
    h.2.2.2.1 (by norm_num) (le_refl 10) (by norm_num), h.2.2.2.2⟩

/-- Counterexample for C4: one producer of capacity 100 next to one
prosumer of capacity 100 gives concentration 1/4 in the code, because
total_capacity includes the prosumer capacity, while the formula of
the claim, over producer capacities only, gives 1. -/
theorem marketConcentration_counterexample :
    marketConcentration [100] [100] = 1/4
    ∧ marketConcentrationSpec [100] = 1
    ∧ ((1 : ℚ)/4 ≠ 1) := by
  refine ⟨?_, ?_, by norm_num⟩
  · norm_num [marketConcentration]
  · norm_num [marketConcentrationSpec]

/-- Amended C4: total_capacity includes prosumer capacities; the
squared shares still range over producers only. With no prosumer
capacity, n producers of equal positive capacity give exactly 1/n (so
a monopoly gives 1), and a single producer next to prosumer capacity d
gives the share (c / (c + d)) squared. -/
theorem marketConcentration_amended (n : ℕ) (c d : ℚ) (hn : 0 < n) (hc : 0 < c)
    (hd : 0 ≤ d) :
    marketConcentration (List.replicate n c) [] = 1 / n
    ∧ marketConcentration [c] [d] = (c / (c + d)) ^ 2 := by
  constructor
  · have hsum : (List.replicate n c).sum = (n : ℚ) * c := by
      simp [List.sum_replicate, nsmul_eq_mul]
    have hpos : (0 : ℚ) < (n : ℚ) * c := by positivity
    have hcne : (c : ℚ) ≠ 0 := ne_of_gt hc
    have hnne : ((n : ℚ)) ≠ 0 := by positivity
    simp only [marketConcentration, List.sum_nil, add_zero, hsum, if_pos hpos,
      List.map_replicate, List.sum_replicate, nsmul_eq_mul]
    field_simp
    ring
  · have hpos : (0 : ℚ) < c + d := by linarith
    simp only [marketConcentration, List.sum_cons, List.sum_nil, add_zero,
      List.map_cons, List.map_nil]
    rw [if_pos hpos]

/-- Witness for C4: two equal producers of capacity 100 and no
prosumers give concentration 1/2. -/
theorem marketConcentration_amended_witness :
    (0 < 2) ∧ ((0 : ℚ) < 100) ∧ ((0 : ℚ) ≤ 0) ∧
    marketConcentration (List.replicate 2 (100 : ℚ)) [] = 1/2 := by
  have h := (marketConcentration_amended 2 100 0 (by norm_num) (by norm_num)
    (le_refl 0)).1
  refine ⟨by norm_num, by norm_num, le_refl 0, ?_⟩
  rw [h]
  norm_num

/-- Counterexample for C5: a market with one utility selling at 10 and
one producer selling at 30 has average_price 10 in the code, since
only utility prices enter the mean, while the claimed mean over both
lists is 20. -/
theorem averagePrice_counterexample :
    averagePrice [10] 100 = 10
    ∧ averagePriceSpec [10] [30] 100 = 20
    ∧ ((10 : ℚ) ≠ 20) := by
  refine ⟨?_, ?_, by norm_num⟩
  · norm_num [averagePrice]
  · norm_num [averagePriceSpec]

/-- Amended C5: average_price is the mean of utility selling prices
alone, with the initial price fallback when there are no utilities; it
agrees with the spec formula exactly when the producer price list is
empty. -/
theorem averagePrice_amended (up : List ℚ) (i : ℚ) :
    averagePrice up i = averagePriceSpec up [] i ∧ averagePrice [] i = i := by
  constructor
  · simp [averagePrice, averagePriceSpec]
  · simp [averagePrice]

/-- Claim C6, at the failing input: a producer priced at 150 with
average price 100 and max increase 0.2 is detected (threshold 120),
but the fine actually issued by the enforcement path is 0, because the
violation dict is typed producer, not price_gouging; the
price_gouging branch of calculate_fine_amount would give 60, as the
repo test suite asserts. -/
theorem priceGouging_fine_is_zero :
    detectPriceGouging 100 (2/10) [("p1", 150)] [] =
      [{ agentId := "p1", vtype := "producer", price := 150, threshold := 120,
         concentration := 0, ratio := 0 }]
    ∧ enforcePriceGougingFines (2/5) (3/10) 100 (2/10) [("p1", 150)] [] =
      [("p1", 0)]
    ∧ calculateFineAmount (2/5) (3/10)
        { agentId := "p1", vtype := "price_gouging", price := 150,
          threshold := 120, concentration := 0, ratio := 0 } = 60 := by
  have hd : detectPriceGouging 100 (2/10) [("p1", 150)] [] =
      [{ agentId := "p1", vtype := "producer", price := 150, threshold := 120,
         concentration := 0, ratio := 0 }] := by
    norm_num [detectPriceGouging]
  have hne1 : ("producer" : String) ≠ "price_gouging" := by decide
  have hne2 : ("producer" : String) ≠ "market_concentration" := by decide
  have hne3 : ("producer" : String) ≠ "renewable_quota" := by decide
  refine ⟨hd, ?_, ?_⟩
  · rw [enforcePriceGougingFines, hd]
    simp [calculateFineAmount, if_neg hne1, if_neg hne2, if_neg hne3]
  · norm_num [calculateFineAmount]

/-- Counterexample for C7: with min_renewable_ratio 3/10, a market
renewable ratio of 1/2 and a single utility of ratio 0, enforcement
emits no renewable_quota violation at all, although the claim demands
a fine of 1500 for that utility. -/
theorem renewableQuota_not_fired :
    ((0 : ℚ) < 3/10)
    ∧ ¬ ((1 : ℚ)/2 < 3/10)
    ∧ enforceRenewableQuota (2/5) (3/10) (1/2) [("u1", 0)] = [] := by
  refine ⟨by norm_num, by norm_num, ?_⟩
  rw [enforceRenewableQuota, if_neg (by norm_num : ¬ ((1 : ℚ)/2 < 3/10))]

/-- Amended C7: only when the market wide renewable ratio is below
min_renewable_ratio does enforcement fine the utilities, and then
every utility whose own ratio is below min_renewable_ratio is fined
(min_renewable_ratio - ratio) * 5000. -/
theorem enforceRenewableQuota_amended (ct m agg : ℚ) (us : List (String × ℚ))
    (h : agg < m) :
    enforceRenewableQuota ct m agg us =
      (us.filter (fun u => decide (u.2 < m))).map
        (fun u => (u.1, (m - u.2) * 5000)) := by
  have hne1 : ("renewable_quota" : String) ≠ "price_gouging" := by decide
  have hne2 : ("renewable_quota" : String) ≠ "market_concentration" := by decide
  rw [enforceRenewableQuota, if_pos h]
  simp [calculateFineAmount, if_neg hne1, if_neg hne2]

/-- Witness for C7: market ratio 1/10 below the minimum 3/10 fines the
utility of ratio 0 by 1500 and spares the one at 2/5. -/
theorem enforceRenewableQuota_amended_witness :
    ((1 : ℚ)/10 < 3/10) ∧
    enforceRenewableQuota (2/5) (3/10) (1/10) [("u1", 0), ("u2", 2/5)] =
      [("u1", 1500)] := by
  refine ⟨by norm_num, ?_⟩
  rw [enforceRenewableQuota_amended (2/5) (3/10) (1/10) _ (by norm_num)]
  norm_num

end EnergyMarket
